import Mathlib

/-!
Verification development for the Rossmann per-store sales pipeline
(`hw3-rossmann.py` / `rf-per-store.py`).  The two scripts contain the same
pipeline functions (`remove_closed_stores`, `one_hot_encode`, `prepare_data`,
`extract_closed_store_ids`, `split_open_closed`, `save_for_submission_csv`,
`train_many_models`); each is embedded once below.

Two complementary embeddings are used, at the two granularities the pipeline
works at:

* a row-level model (`Row`, `OpenRow`, …) for the control flow of
  `split_open_closed`, `save_for_submission_csv` and the per-store loop of
  `train_many_models`, where a pandas frame is a list of rows and the frame's
  index label travels with each row as its `id` field (pandas keeps index
  labels under boolean-mask filtering, which is exactly what a per-row `id`
  field models);
* a column-level model (`Frames.DataFrame`) for the schema manipulation in
  `prepare_data` (`drop`, `get_dummies`/`join`, the `df[var] = 0`
  missing-indicator loop), where a frame is an ordered list of named columns.

The regression models themselves (`model.fit` / `model.predict`) are opaque
capabilities in the spec and are embedded as an opaque-function parameter
`predict`; everything the pipeline itself computes is embedded concretely.
-/

/-! ## Row-level model -/

/-- One row of a prepared frame, keeping the fields the pipeline's control
flow reads: the index label `id` (assigned by `df['Id'] = df.index` in
`prepare_data`), the `Store` key and the `Open` flag.  The remaining feature
and target columns are consumed only by the opaque regressor. -/
structure Row where
  id : Nat
  store : Nat
  openFlag : Nat
deriving DecidableEq

/-- A row of the open-store test table after `split_open_closed` dropped the
`Open` column. -/
structure OpenRow where
  id : Nat
  store : Nat
deriving DecidableEq

/-- Dropping the `Open` column from a row (`test_df.drop(['Open'], axis=1)`). -/
def dropOpenCol (r : Row) : OpenRow := ⟨r.id, r.store⟩

/-- `remove_closed_stores`: `df[df['Open'] != 0]`. -/
def remove_closed_stores (df : List Row) : List Row :=
  df.filter (fun r => r.openFlag ≠ 0)

/-- `extract_closed_store_ids`: `df[df['Open'] == 0]['Id']`. -/
def extract_closed_store_ids (df : List Row) : List Nat :=
  (df.filter (fun r => r.openFlag = 0)).map Row.id

/-- `split_open_closed`: extracts the closed ids, keeps the open rows and
drops the `Open` column from them. -/
def split_open_closed (test_df : List Row) : List Nat × List OpenRow :=
  (extract_closed_store_ids test_df,
   (remove_closed_stores test_df).map dropOpenCol)

/-- `save_for_submission_csv`: builds the open-store rows
`(Id + 1, 2 ** value)`, the closed-store rows `(Id + 1, 1)`, and concatenates
them (`pd.concat([open_store_sales, closed_store_sales])`).  An open
prediction is an `(index label, predicted log-sales)` pair of the accumulated
`open_store_sales` series. -/
noncomputable def save_for_submission_csv (closed_store_ids : List Nat)
    (open_store_sales : List (Nat × ℝ)) : List (Nat × ℝ) :=
  (open_store_sales.map (fun p => (p.1 + 1, (2 : ℝ) ^ p.2))) ++
    (closed_store_ids.map (fun j => (j + 1, (1 : ℝ))))

/-- The keys of `dict(list(df.groupby('Store')))`: the distinct store values
occurring in the frame. -/
def storeKeysOf (df : List OpenRow) : List Nat :=
  (df.map OpenRow.store).dedup

/-- The rows of one group of `df.groupby('Store')` (row order preserved). -/
def storeGroup (df : List OpenRow) (k : Nat) : List OpenRow :=
  df.filter (fun r => r.store = k)

/-- The `for i in test_stores:` loop body of `train_many_models`, iterating
over the store keys `ks` of the open test table.  For each key it looks the
store up in the training groups — `current_store = train_stores[i]` raises a
fatal `KeyError` when the store is absent from the training frame, embedded
as `Except.error` — and otherwise appends the pairs
`pd.Series(test_y, index=open_store_ids)` produced by the opaque fitted
model to the accumulated `open_store_sales`. -/
def loopStores (predict : Nat → List Row → OpenRow → ℝ) (train_df : List Row)
    (open_test : List OpenRow) : List Nat → Except Nat (List (Nat × ℝ))
  | [] => Except.ok []
  | k :: ks =>
    if k ∈ train_df.map Row.store then
      match loopStores predict train_df open_test ks with
      | Except.ok rest =>
          Except.ok
            (((storeGroup open_test k).map
                (fun r => (r.id, predict k (train_df.filter (fun t => t.store = k)) r)))
              ++ rest)
      | Except.error e => Except.error e
    else Except.error k

/-- `train_many_models`: splits the test frame into closed ids and open rows,
runs the per-store loop, and on success assembles the submission via
`save_for_submission_csv`.  A `KeyError` (missing training store) aborts the
run with no submission. -/
noncomputable def train_many_models (predict : Nat → List Row → OpenRow → ℝ)
    (train_df test_df : List Row) : Except Nat (List (Nat × ℝ)) :=
  let closed_store_ids := (split_open_closed test_df).1
  let open_test := (split_open_closed test_df).2
  match loopStores predict train_df open_test (storeKeysOf open_test) with
  | Except.ok open_store_sales =>
      Except.ok (save_for_submission_csv closed_store_ids open_store_sales)
  | Except.error e => Except.error e

/-! ## Target transform (`np.log2` / `np.power(2, ·)`) -/

/-- The zero floor `df['Sales'].replace([0], [0.0001])` applied before the
log transform ("prevent nans"). -/
noncomputable def floorZero (v : ℝ) : ℝ := if v = 0 then 0.0001 else v

/-- `np.log2` applied to the floored target. -/
noncomputable def normalize_target (v : ℝ) : ℝ := Real.logb 2 (floorZero v)

/-- `np.power(2, x)`, the inverse transform used by
`save_for_submission_csv`. -/
noncomputable def inverse_transform (x : ℝ) : ℝ := (2 : ℝ) ^ x

/-! ## Id assignment (`df['Id'] = df.index`)

`prepare_data` assigns the `Id` column from the frame's index; for a frame
freshly read by `read_csv` the index is `0, 1, …, n-1`, i.e. the row
position in the table handed to `prepare_data`.  On the training side the
script runs `train = prepare_data(train, …)` and only afterwards
`train = remove_closed_stores(train)`. -/

/-- A raw row before `prepare_data` assigned it an id. -/
structure RawRow where
  store : Nat
  openFlag : Nat
deriving DecidableEq

/-- Numbering rows from `n` onwards (a `RangeIndex` starting at `n`). -/
def assignIdsFrom (n : Nat) : List RawRow → List Row
  | [] => []
  | r :: rs => ⟨n, r.store, r.openFlag⟩ :: assignIdsFrom (n + 1) rs

/-- The id-assignment step of `prepare_data` (`df['Id'] = df.index`):
each row receives its position in the input table (a freshly read frame
carries the index `0, 1, …, n-1`). -/
def prepareDataIds (df : List RawRow) : List Row := assignIdsFrom 0 df

/-! ## Column-level model of `prepare_data` -/

namespace Frames

/-- A cell value of a raw or prepared frame: numeric columns hold rationals,
string columns (`Date`, `StateHoliday` after `astype(str)`) hold strings. -/
inductive Val where
  | num (q : ℚ)
  | str (s : String)
deriving DecidableEq

/-- The string form of a value, as used for `astype(str)` and for naming
`get_dummies` indicator columns (`<prefix>_<level>`). -/
def Val.name : Val → String
  | Val.str s => s
  | Val.num q => toString q.num ++ (if q.den = 1 then "" else "/" ++ toString q.den)

/-- The numeric content of a value (numeric columns only). -/
def Val.toQ : Val → ℚ
  | Val.num q => q
  | Val.str _ => 0

/-- A pandas frame as an ordered list of named columns. -/
structure DataFrame where
  cols : List (String × List Val)
deriving DecidableEq

/-- The frame's column names, in order. -/
def DataFrame.columns (df : DataFrame) : List String := df.cols.map Prod.fst

/-- `df.drop(names, axis=1)` (call sites only ever drop present columns). -/
def DataFrame.drop (df : DataFrame) (names : List String) : DataFrame :=
  ⟨df.cols.filter (fun c => ¬ c.1 ∈ names)⟩

/-- `df[name]`: the values of a column (empty for an absent name). -/
def DataFrame.getCol (df : DataFrame) (name : String) : List Val :=
  ((df.cols.find? (fun c => c.1 = name)).map Prod.snd).getD []

/-- The frame's row count (length of its first column). -/
def DataFrame.nrows (df : DataFrame) : Nat :=
  ((df.cols.head?).map (fun c => c.2.length)).getD 0

/-- `df[name] = vals`: overwrite a present column in place, or append a new
column at the end of the frame — the pandas assignment semantics that
`prepare_data` relies on for the `df[var] = 0` loop and `df['Id']`. -/
def DataFrame.setCol (df : DataFrame) (name : String) (vals : List Val) : DataFrame :=
  if name ∈ df.columns then
    ⟨df.cols.map (fun c => if c.1 = name then (name, vals) else c)⟩
  else ⟨df.cols ++ [(name, vals)]⟩

/-- `df.join(other)`: appends the other frame's columns on the right. -/
def DataFrame.join (df other : DataFrame) : DataFrame :=
  ⟨df.cols ++ other.cols⟩

/-- Lexicographic comparison on character lists. -/
def charListLe : List Char → List Char → Bool
  | [], _ => true
  | _ :: _, [] => false
  | a :: as, b :: bs => if a < b then true else if b < a then false else charListLe as bs

/-- String comparison used to sort observed categorical levels the way
`pd.get_dummies` does. -/
def strLe (a b : String) : Bool := charListLe a.data b.data

/-- Insertion into a sorted list of strings. -/
def insertSorted (x : String) : List String → List String
  | [] => [x]
  | y :: ys => if strLe x y then x :: y :: ys else y :: insertSorted x ys

/-- Insertion sort on strings (kernel-reducible). -/
def sortStrings : List String → List String
  | [] => []
  | x :: xs => insertSorted x (sortStrings xs)

/-- The distinct observed levels of a categorical column, sorted — the
column universe of `pd.get_dummies`. -/
def sortedLevels (vals : List String) : List String := sortStrings vals.dedup

/-- `pd.get_dummies(df[target], prefix=pre)`: one 0/1 indicator column per
observed level, named `pre ++ "_" ++ level`. -/
def get_dummies (vals : List String) (pre : String) : DataFrame :=
  ⟨(sortedLevels vals).map
    (fun l => (pre ++ "_" ++ l,
      vals.map (fun v => if v = l then Val.num 1 else Val.num 0)))⟩

/-- `one_hot_encode`: builds the dummy frame of the target column (dropping
the excluded dummy names, if any), drops the target column and joins the
dummies on the right. -/
def one_hot_encode (df : DataFrame) (target pre : String)
    (excludes : Option (List String)) : DataFrame :=
  let dummy := get_dummies ((df.getCol target).map Val.name) pre
  let dummy := match excludes with
    | some e => dummy.drop e
    | none => dummy
  (df.drop [target]).join dummy

/-- The `for var in [...]: if var not in df.columns.values: df[var] = 0`
loop of `prepare_data`: appends an all-zero column for every required
indicator name that is still missing. -/
def addMissingColumns (df : DataFrame) (required : List String) : DataFrame :=
  required.foldl
    (fun d var =>
      if var ∈ d.columns then d
      else d.setCol var (List.replicate d.nrows (Val.num 0)))
    df

/-- The `StateHoliday` indicator names `prepare_data` guarantees. -/
def stateHolidayVars : List String :=
  ["StateHoliday_0", "StateHoliday_a", "StateHoliday_b", "StateHoliday_c"]

/-- The `DayOfWeek` indicator names `prepare_data` guarantees. -/
def dayVars : List String :=
  ["Day_1", "Day_2", "Day_3", "Day_4", "Day_5", "Day_6", "Day_7"]

/-- The zero floor `replace([0], [0.0001])` on rational cell values. -/
def floorZeroQ (q : ℚ) : ℚ := if q = 0 then 1 / 10000 else q

/-- `prepare_data` at column granularity.  `log2v` stands for `np.log2` on
cell values (the schema never depends on it).  Steps, in source order:
drop `to_drop`; `astype(str)` on `StateHoliday`; one-hot encode
`StateHoliday`; add the missing `StateHoliday_*` indicators; floor and log
`Customers`; one-hot encode `DayOfWeek` with prefix `Day`; add the missing
`Day_*` indicators; append `Id = df.index = 0..n-1`; floor and log `Sales`
when `has_y`. -/
def prepare_data (log2v : ℚ → ℚ) (df : DataFrame) (to_drop : List String)
    (has_y : Bool) : DataFrame :=
  let df := df.drop to_drop
  let df := df.setCol "StateHoliday"
    ((df.getCol "StateHoliday").map (fun v => Val.str v.name))
  let df := one_hot_encode df "StateHoliday" "StateHoliday" none
  let df := addMissingColumns df stateHolidayVars
  let df := df.setCol "Customers"
    ((df.getCol "Customers").map (fun v => Val.num (log2v (floorZeroQ v.toQ))))
  let df := one_hot_encode df "DayOfWeek" "Day" none
  let df := addMissingColumns df dayVars
  let df := df.setCol "Id" ((List.range df.nrows).map (fun i => Val.num i))
  if has_y then
    df.setCol "Sales"
      ((df.getCol "Sales").map (fun v => Val.num (log2v (floorZeroQ v.toQ))))
  else df

/-- The feature-matrix columns used for fitting in `train_many_models`:
`current_store.drop(['Id', 'Sales', 'Store', 'Open'], axis=1)` applied to a
prepared training frame (grouping by store does not change the columns). -/
def trainFeatureColumns (log2v : ℚ → ℚ) (rawTrain : DataFrame) : List String :=
  ((prepare_data log2v rawTrain ["Date"] true).drop
    ["Id", "Sales", "Store", "Open"]).columns

/-- The feature-matrix columns used for prediction in `train_many_models`:
`split_open_closed` drops `Open` from the prepared test frame and the loop
drops `Id` and `Store` (`test_x = test_x.drop(['Id', 'Store'], axis=1)`). -/
def testFeatureColumns (log2v : ℚ → ℚ) (rawTest : DataFrame) : List String :=
  (((prepare_data log2v rawTest ["Date"] false).drop ["Open"]).drop
    ["Id", "Store"]).columns

end Frames

/-! ## Concrete raw frames for schema claims -/

namespace Frames

/-- The raw training-table schema of the shared column contract
(`train_v2.csv`). -/
def rawTrainColumns : List String :=
  ["Store", "DayOfWeek", "Date", "Sales", "Customers", "Open", "Promo",
   "StateHoliday", "SchoolHoliday"]

/-- The raw test-table schema: the training schema without `Sales`. -/
def rawTestColumns : List String :=
  ["Store", "DayOfWeek", "Date", "Customers", "Open", "Promo",
   "StateHoliday", "SchoolHoliday"]

/-- A one-row raw training frame whose observed `StateHoliday` level is
`"a"`. -/
def rawTrainA : DataFrame :=
  ⟨[("Store", [Val.num 1]), ("DayOfWeek", [Val.num 1]),
    ("Date", [Val.str "2015-08-01"]), ("Sales", [Val.num 8]),
    ("Customers", [Val.num 5]), ("Open", [Val.num 1]),
    ("Promo", [Val.num 0]), ("StateHoliday", [Val.str "a"]),
    ("SchoolHoliday", [Val.num 0])]⟩

/-- A one-row raw training frame whose observed `StateHoliday` level is
`"d"`, outside the enumeration `prepare_data` synthesizes. -/
def rawTrainD : DataFrame :=
  ⟨[("Store", [Val.num 1]), ("DayOfWeek", [Val.num 1]),
    ("Date", [Val.str "2015-08-01"]), ("Sales", [Val.num 8]),
    ("Customers", [Val.num 5]), ("Open", [Val.num 1]),
    ("Promo", [Val.num 0]), ("StateHoliday", [Val.str "d"]),
    ("SchoolHoliday", [Val.num 0])]⟩

/-- A one-row raw test frame whose observed `StateHoliday` level is
`"0"`. -/
def rawTestZero : DataFrame :=
  ⟨[("Store", [Val.num 1]), ("DayOfWeek", [Val.num 1]),
    ("Date", [Val.str "2015-09-01"]), ("Customers", [Val.num 5]),
    ("Open", [Val.num 1]), ("Promo", [Val.num 0]),
    ("StateHoliday", [Val.str "0"]), ("SchoolHoliday", [Val.num 0])]⟩

end Frames

/-! ## Theorems -/

/-- C2: for every positive target value `v`, flooring, taking `log2` and
exponentiating base 2 returns `v`; for `v = 0` the round trip returns the
floor value `0.0001`, not `0`. -/
theorem c2_round_trip (v : ℝ) (hv : 0 < v) :
    inverse_transform (normalize_target v) = v ∧
    inverse_transform (normalize_target 0) = 0.0001 := by
  constructor
  · unfold inverse_transform normalize_target floorZero
    rw [if_neg (ne_of_gt hv)]
    exact Real.rpow_logb (by norm_num) (by norm_num) hv
  · unfold inverse_transform normalize_target floorZero
    rw [if_pos rfl]
    exact Real.rpow_logb (by norm_num) (by norm_num) (by norm_num)

/-- C2 witness: the round trip at the concrete positive value `1`. -/
theorem c2_round_trip_witness :
    (0 : ℝ) < 1 ∧ inverse_transform (normalize_target 1) = 1 :=
  ⟨by norm_num, (c2_round_trip 1 (by norm_num)).1⟩

/-- C1: the submission built by `save_for_submission_csv` consists of the
row `(i + 1, 2 ^ p)` for every open prediction `(i, p)`, the row `(j + 1, 1)`
for every closed id `j`, and nothing else; the closed-store value is the
constant `1`, which is nonzero. -/
theorem c1_submission_rows (closed_store_ids : List Nat)
    (open_store_sales : List (Nat × ℝ)) :
    (∀ p ∈ open_store_sales,
      (p.1 + 1, (2 : ℝ) ^ p.2) ∈ save_for_submission_csv closed_store_ids open_store_sales) ∧
    (∀ j ∈ closed_store_ids,
      (j + 1, (1 : ℝ)) ∈ save_for_submission_csv closed_store_ids open_store_sales) ∧
    (∀ r ∈ save_for_submission_csv closed_store_ids open_store_sales,
      (∃ p ∈ open_store_sales, r = (p.1 + 1, (2 : ℝ) ^ p.2)) ∨
      (∃ j ∈ closed_store_ids, r = (j + 1, (1 : ℝ)) ∧ r.2 ≠ 0)) := by
  refine ⟨fun p hp => ?_, fun j hj => ?_, fun r hr => ?_⟩
  · simp only [save_for_submission_csv, List.mem_append, List.mem_map]
    exact Or.inl ⟨p, hp, rfl⟩
  · simp only [save_for_submission_csv, List.mem_append, List.mem_map]
    exact Or.inr ⟨j, hj, rfl⟩
  · simp only [save_for_submission_csv, List.mem_append, List.mem_map] at hr
    rcases hr with ⟨p, hp, rfl⟩ | ⟨j, hj, rfl⟩
    · exact Or.inl ⟨p, hp, rfl⟩
    · exact Or.inr ⟨j, hj, rfl, by norm_num⟩

/-- C1 witness: the closed id `2` yields the concrete row `(3, 1)`. -/
theorem c1_witness :
    ((3 : Nat), (1 : ℝ)) ∈ save_for_submission_csv [2] [(0, 0)] :=
  (c1_submission_rows [2] [(0, 0)]).2.1 2 (by simp)

/-- C6 counterexample: with record identity `5` in both the closed set and
the open-prediction set, `save_for_submission_csv` raises nothing — it
succeeds and emits a row for each occurrence. -/
theorem c6_counterexample :
    save_for_submission_csv [5] [(5, 0)] = [(6, (1 : ℝ)), (6, (1 : ℝ))] := by
  simp [save_for_submission_csv]

/-- C6 amended: the assembler performs no duplicate-identity check and never
fails; it always emits exactly one row per open prediction plus one row per
closed id, even when an identity appears in both sets. -/
theorem c6_assembler_total (closed_store_ids : List Nat)
    (open_store_sales : List (Nat × ℝ)) :
    (save_for_submission_csv closed_store_ids open_store_sales).length =
      open_store_sales.length + closed_store_ids.length := by
  simp [save_for_submission_csv]

/-- C3: on a test table with distinct record identities, the closed ids and
the identities of the open table are disjoint, and together they are exactly
the identities of the input table. -/
theorem c3_split_disjoint_union (test_df : List Row)
    (h : (test_df.map Row.id).Nodup) :
    (∀ i, i ∈ (split_open_closed test_df).1 →
        i ∈ (split_open_closed test_df).2.map OpenRow.id → False) ∧
    (∀ i, i ∈ test_df.map Row.id ↔
        i ∈ (split_open_closed test_df).1 ∨
          i ∈ (split_open_closed test_df).2.map OpenRow.id) := by
  constructor
  · intro i hc ho
    simp only [split_open_closed, extract_closed_store_ids, remove_closed_stores,
      dropOpenCol, List.mem_map, List.mem_filter, decide_eq_true_eq, ne_eq] at hc ho
    rcases hc with ⟨r1, ⟨hr1, hflag1⟩, hid1⟩
    rcases ho with ⟨r2', ⟨r2, ⟨hr2, hflag2⟩, rfl⟩, hid2⟩
    have heq : r1 = r2 :=
      List.inj_on_of_nodup_map h hr1 hr2 (by rw [hid1]; exact hid2.symm)
    rw [heq] at hflag1
    exact hflag2 hflag1
  · intro i
    simp only [split_open_closed, extract_closed_store_ids, remove_closed_stores,
      dropOpenCol, List.mem_map, List.mem_filter, decide_eq_true_eq, ne_eq]
    constructor
    · rintro ⟨r, hr, rfl⟩
      by_cases hflag : r.openFlag = 0
      · exact Or.inl ⟨r, ⟨hr, hflag⟩, rfl⟩
      · exact Or.inr ⟨⟨r.id, r.store⟩, ⟨r, ⟨hr, hflag⟩, rfl⟩, rfl⟩
    · rintro (⟨r, ⟨hr, _⟩, rfl⟩ | ⟨r', ⟨r, ⟨hr, _⟩, rfl⟩, rfl⟩)
      · exact ⟨r, hr, rfl⟩
      · exact ⟨r, hr, rfl⟩

/-- C3 witness: the split of a concrete two-row test table (one closed row,
one open row) with distinct identities. -/
theorem c3_witness :
    (∀ i, i ∈ (split_open_closed [⟨0, 1, 0⟩, ⟨1, 1, 1⟩]).1 →
        i ∈ (split_open_closed [⟨0, 1, 0⟩, ⟨1, 1, 1⟩]).2.map OpenRow.id → False) ∧
    (∀ i, i ∈ ([⟨0, 1, 0⟩, ⟨1, 1, 1⟩] : List Row).map Row.id ↔
        i ∈ (split_open_closed [⟨0, 1, 0⟩, ⟨1, 1, 1⟩]).1 ∨
          i ∈ (split_open_closed [⟨0, 1, 0⟩, ⟨1, 1, 1⟩]).2.map OpenRow.id) :=
  c3_split_disjoint_union [⟨0, 1, 0⟩, ⟨1, 1, 1⟩] (by decide)

/-- Helper: the per-store loop errors exactly when some iterated store key is
absent from the training frame. -/
theorem loopStores_error_iff (predict : Nat → List Row → OpenRow → ℝ)
    (train_df : List Row) (open_test : List OpenRow) (ks : List Nat) :
    (∃ e, loopStores predict train_df open_test ks = Except.error e) ↔
    ∃ k ∈ ks, ¬ k ∈ train_df.map Row.store := by
  induction ks with
  | nil => simp [loopStores]
  | cons k ks ih =>
    by_cases hk : k ∈ train_df.map Row.store
    · rcases hrec : loopStores predict train_df open_test ks with e | v
      · simp only [loopStores, if_pos hk, hrec]
        constructor
        · intro _
          rcases ih.mp ⟨e, hrec⟩ with ⟨k', hk', habsent⟩
          exact ⟨k', by simp [hk'], habsent⟩
        · intro _
          exact ⟨e, rfl⟩
      · simp only [loopStores, if_pos hk, hrec]
        constructor
        · rintro ⟨e, he⟩
          exact absurd he (by simp)
        · rintro ⟨k', hk', hk'absent⟩
          rcases List.mem_cons.mp hk' with rfl | hk'
          · exact absurd hk hk'absent
          · rcases ih.mpr ⟨k', hk', hk'absent⟩ with ⟨e, he⟩
            rw [hrec] at he
            exact absurd he (by simp)
    · constructor
      · intro _
        exact ⟨k, by simp, hk⟩
      · intro _
        exact ⟨k, by simp [loopStores, hk]⟩

/-- C7: `train_many_models` aborts with an error (and then produces no
submission) exactly when some store of the open test table is absent from
the training frame; when every test store is present, no failure occurs. -/
theorem c7_missing_store_fatal (predict : Nat → List Row → OpenRow → ℝ)
    (train_df test_df : List Row) :
    (∃ e, train_many_models predict train_df test_df = Except.error e) ↔
    ∃ k ∈ storeKeysOf (split_open_closed test_df).2, ¬ k ∈ train_df.map Row.store := by
  rw [← loopStores_error_iff predict train_df (split_open_closed test_df).2
    (storeKeysOf (split_open_closed test_df).2)]
  unfold train_many_models
  rcases h : loopStores predict train_df (split_open_closed test_df).2
      (storeKeysOf (split_open_closed test_df).2) with e | v
  · simp [h]
  · simp [h]

/-- C7 witness: a test store (`2`) absent from the training frame makes the
run fail, and over an identical store universe it succeeds. -/
theorem c7_witness :
    (∃ e, train_many_models (fun _ _ _ => (0 : ℝ)) [⟨0, 1, 1⟩] [⟨0, 2, 1⟩] =
      Except.error e) ∧
    ¬ (∃ e, train_many_models (fun _ _ _ => (0 : ℝ)) [⟨0, 2, 1⟩] [⟨0, 2, 1⟩] =
      Except.error e) := by
  constructor
  · exact (c7_missing_store_fatal (fun _ _ _ => (0 : ℝ)) [⟨0, 1, 1⟩] [⟨0, 2, 1⟩]).mpr
      ⟨2, by decide, by decide⟩
  · intro h
    have h2 := (c7_missing_store_fatal (fun _ _ _ => (0 : ℝ)) [⟨0, 2, 1⟩] [⟨0, 2, 1⟩]).mp h
    revert h2
    decide

/-- Helper: when every iterated store key is present in the training frame,
the per-store loop succeeds and accumulates, store by store, the pairs
`(row id, prediction)` over the rows of that store's test group. -/
theorem loopStores_ok_formula (predict : Nat → List Row → OpenRow → ℝ)
    (train_df : List Row) (open_test : List OpenRow) (ks : List Nat)
    (hcover : ∀ k ∈ ks, k ∈ train_df.map Row.store) :
    loopStores predict train_df open_test ks =
      Except.ok (ks.flatMap (fun k => (storeGroup open_test k).map
        (fun r => (r.id, predict k (train_df.filter (fun t => t.store = k)) r)))) := by
  induction ks with
  | nil => simp [loopStores]
  | cons k ks ih =>
    have hk := hcover k (List.mem_cons_self k ks)
    rw [List.flatMap_cons]
    simp only [loopStores, if_pos hk,
      ih (fun k' hk' => hcover k' (List.mem_cons_of_mem _ hk'))]

/-- Helper: the identities of the open test table are distinct whenever the
identities of the input test table are. -/
theorem open_test_ids_nodup (test_df : List Row)
    (h : (test_df.map Row.id).Nodup) :
    ((split_open_closed test_df).2.map OpenRow.id).Nodup := by
  have heq : (split_open_closed test_df).2.map OpenRow.id =
      (remove_closed_stores test_df).map Row.id := by
    simp only [split_open_closed, List.map_map]
    rfl
  rw [heq]
  exact h.sublist ((List.filter_sublist _).map Row.id)

/-- C5: when every open test store is present in the training frame, the
per-store loop succeeds and the record identities receiving a prediction are
exactly the identities of the open test table, without duplicates. -/
theorem c5_prediction_ids (predict : Nat → List Row → OpenRow → ℝ)
    (train_df test_df : List Row) (preds : List (Nat × ℝ))
    (hids : (test_df.map Row.id).Nodup)
    (hcover : ∀ k ∈ storeKeysOf (split_open_closed test_df).2,
      k ∈ train_df.map Row.store)
    (hok : loopStores predict train_df (split_open_closed test_df).2
      (storeKeysOf (split_open_closed test_df).2) = Except.ok preds) :
    (preds.map Prod.fst).Nodup ∧
    (∀ i, i ∈ preds.map Prod.fst ↔
      i ∈ (split_open_closed test_df).2.map OpenRow.id) := by
  have hopen : ((split_open_closed test_df).2.map OpenRow.id).Nodup :=
    open_test_ids_nodup test_df hids
  set o := (split_open_closed test_df).2 with ho
  rw [loopStores_ok_formula predict train_df o (storeKeysOf o) hcover] at hok
  have hpreds : preds = (storeKeysOf o).flatMap (fun k => (storeGroup o k).map
      (fun r => (r.id, predict k (train_df.filter (fun t => t.store = k)) r))) :=
    (Except.ok.injEq _ _).mp hok.symm
  have hfst : preds.map Prod.fst =
      (storeKeysOf o).flatMap (fun k => (storeGroup o k).map OpenRow.id) := by
    rw [hpreds, List.map_flatMap]
    simp only [List.map_map]
    rfl
  constructor
  · rw [hfst]
    refine List.nodup_flatMap.mpr ⟨?_, ?_⟩
    · intro k _
      exact hopen.sublist ((List.filter_sublist _).map OpenRow.id)
    · refine List.Pairwise.imp ?_ (List.nodup_dedup (o.map OpenRow.store))
      intro k1 k2 hne i hi1 hi2
      simp only [storeGroup, List.mem_map, List.mem_filter, decide_eq_true_eq] at hi1 hi2
      rcases hi1 with ⟨r1, ⟨hr1, hs1⟩, hid1⟩
      rcases hi2 with ⟨r2, ⟨hr2, hs2⟩, hid2⟩
      have : r1 = r2 :=
        List.inj_on_of_nodup_map hopen hr1 hr2 (by rw [hid1, hid2])
      exact hne (by rw [← hs1, this, hs2])
  · intro i
    rw [hfst]
    constructor
    · intro hi
      rcases List.mem_flatMap.mp hi with ⟨k, _, hik⟩
      rcases List.mem_map.mp hik with ⟨r, hr, rfl⟩
      exact List.mem_map.mpr ⟨r, List.mem_of_mem_filter hr, rfl⟩
    · intro hi
      rcases List.mem_map.mp hi with ⟨r, hr, rfl⟩
      refine List.mem_flatMap.mpr ⟨r.store, ?_, ?_⟩
      · exact List.mem_dedup.mpr (List.mem_map.mpr ⟨r, hr, rfl⟩)
      · exact List.mem_map.mpr ⟨r, List.mem_filter.mpr ⟨hr, by simp⟩, rfl⟩

/-- C5 witness: two open test rows over two stores, both stores present in
the training frame. -/
theorem c5_witness :
    ((([(3, (0 : ℝ)), (7, (0 : ℝ))] : List (Nat × ℝ)).map Prod.fst).Nodup ∧
      (∀ i, i ∈ ([(3, (0 : ℝ)), (7, (0 : ℝ))] : List (Nat × ℝ)).map Prod.fst ↔
        i ∈ (split_open_closed [⟨3, 1, 1⟩, ⟨7, 2, 1⟩]).2.map OpenRow.id)) :=
  c5_prediction_ids (fun _ _ _ => (0 : ℝ)) [⟨0, 1, 1⟩, ⟨1, 2, 1⟩]
    [⟨3, 1, 1⟩, ⟨7, 2, 1⟩] [(3, 0), (7, 0)] (by decide) (by decide) (by rfl)

/-- Helper: numbering rows from `n` yields the id labels `n, n+1, …`. -/
theorem assignIdsFrom_map_id (n : Nat) (df : List RawRow) :
    (assignIdsFrom n df).map Row.id = List.range' n df.length := by
  induction df generalizing n with
  | nil => simp [assignIdsFrom]
  | cons r rs ih =>
    simp only [assignIdsFrom, List.map_cons, List.length_cons, List.range'_succ]
    rw [ih]

/-- C9 counterexample: on the training side the ids are assigned before
closed-store filtering, so the surviving row of this two-row table keeps
label `1` although its position in the filtered table is `0`. -/
theorem c9_counterexample :
    (remove_closed_stores (prepareDataIds [⟨1, 0⟩, ⟨1, 1⟩])).map Row.id ≠
      List.range (remove_closed_stores (prepareDataIds [⟨1, 0⟩, ⟨1, 1⟩])).length := by
  decide

/-- C9 amended: the record-identity column equals the row positions of the
table handed to the normalizer (its fresh index `0..n-1`), and the
closed-store filtering applied afterwards on the training side preserves
these labels (each surviving row is a row of the normalized table,
unrenumbered) rather than re-indexing the filtered table. -/
theorem c9_ids_input_positions (df : List RawRow) :
    (prepareDataIds df).map Row.id = List.range df.length ∧
    ∀ r ∈ remove_closed_stores (prepareDataIds df), r ∈ prepareDataIds df := by
  constructor
  · rw [prepareDataIds, assignIdsFrom_map_id, List.range_eq_range']
  · intro r hr
    exact List.mem_of_mem_filter hr

/-- Helper: overwriting an absent column appends it on the right. -/
theorem Frames.setCol_of_not_mem (df : Frames.DataFrame) (n : String)
    (v : List Frames.Val) (h : ¬ n ∈ df.columns) :
    df.setCol n v = ⟨df.cols ++ [(n, v)]⟩ := by
  simp [Frames.DataFrame.setCol, h]

/-- Helper: overwriting a present column keeps the column-name list. -/
theorem Frames.columns_setCol_of_mem (df : Frames.DataFrame) (n : String)
    (v : List Frames.Val) (h : n ∈ df.columns) :
    (df.setCol n v).columns = df.columns := by
  unfold Frames.DataFrame.setCol
  rw [if_pos h]
  simp only [Frames.DataFrame.columns, List.map_map]
  refine List.map_congr_left ?_
  intro q _
  by_cases hq : q.1 = n
  · simp [Function.comp, hq]
  · simp [Function.comp, hq]

/-- Helper: the columns after an assignment are the old columns plus the
assigned name. -/
theorem Frames.mem_columns_setCol (df : Frames.DataFrame) (n : String)
    (v : List Frames.Val) (c : String) :
    c ∈ (df.setCol n v).columns ↔ c ∈ df.columns ∨ c = n := by
  by_cases h : n ∈ df.columns
  · rw [Frames.columns_setCol_of_mem df n v h]
    constructor
    · exact Or.inl
    · rintro (h1 | rfl)
      · exact h1
      · exact h
  · rw [Frames.setCol_of_not_mem df n v h]
    simp [Frames.DataFrame.columns]

/-- Helper: appending a zero column does not change the row count. -/
theorem Frames.nrows_append_zero (df : Frames.DataFrame) (v : String) :
    (Frames.DataFrame.mk
      (df.cols ++ [(v, List.replicate df.nrows (Frames.Val.num 0))])).nrows =
      df.nrows := by
  rcases df with ⟨cols⟩
  cases cols with
  | nil => simp [Frames.DataFrame.nrows]
  | cons c cs => simp [Frames.DataFrame.nrows]

/-- Helper: the `df[var] = 0` loop appends exactly the missing required
names, as zero-filled columns, in order, after the existing columns. -/
theorem Frames.addMissingColumns_eq (df : Frames.DataFrame)
    (required : List String) (hnd : required.Nodup) :
    Frames.addMissingColumns df required =
      ⟨df.cols ++ (required.filter (fun v => ¬ v ∈ df.columns)).map
        (fun v => (v, List.replicate df.nrows (Frames.Val.num 0)))⟩ := by
  induction required generalizing df with
  | nil =>
    rcases df with ⟨cols⟩
    simp [Frames.addMissingColumns]
  | cons v req ih =>
    rcases List.nodup_cons.mp hnd with ⟨hv, hreq⟩
    by_cases h : v ∈ df.columns
    · simp only [Frames.addMissingColumns, List.foldl_cons, if_pos h]
      rw [show List.foldl _ df req = Frames.addMissingColumns df req from rfl,
        ih df hreq, List.filter_cons]
      simp [h]
    · simp only [Frames.addMissingColumns, List.foldl_cons, if_neg h,
        Frames.setCol_of_not_mem df v _ h]
      rw [show List.foldl _ _ req = Frames.addMissingColumns
        ⟨df.cols ++ [(v, List.replicate df.nrows (Frames.Val.num 0))]⟩ req from rfl,
        ih _ hreq, List.filter_cons]
      have hcols : (Frames.DataFrame.mk
          (df.cols ++ [(v, List.replicate df.nrows (Frames.Val.num 0))])).columns =
          df.columns ++ [v] := by
        simp [Frames.DataFrame.columns]
      have hfilter : req.filter (fun x => ¬ x ∈ (Frames.DataFrame.mk
          (df.cols ++ [(v, List.replicate df.nrows (Frames.Val.num 0))])).columns) =
          req.filter (fun x => ¬ x ∈ df.columns) := by
        refine List.filter_congr ?_
        intro x hx
        have hxv : x ≠ v := fun hxv => hv (hxv ▸ hx)
        simp [hcols, hxv]
      rw [hfilter, Frames.nrows_append_zero]
      simp [h, List.append_assoc]

/-- C8: aligning a table that already contains all required indicator
columns is a no-op, and in general alignment appends exactly the missing
required columns, zero-filled over all rows, leaving the existing columns
and data unchanged. -/
theorem c8_alignment (df : Frames.DataFrame) (required : List String)
    (hnd : required.Nodup) :
    ((∀ v ∈ required, v ∈ df.columns) → Frames.addMissingColumns df required = df) ∧
    Frames.addMissingColumns df required =
      ⟨df.cols ++ (required.filter (fun v => ¬ v ∈ df.columns)).map
        (fun v => (v, List.replicate df.nrows (Frames.Val.num 0)))⟩ := by
  refine ⟨fun hall => ?_, Frames.addMissingColumns_eq df required hnd⟩
  rw [Frames.addMissingColumns_eq df required hnd]
  have hnil : required.filter (fun v => ¬ v ∈ df.columns) = [] := by
    rw [List.filter_eq_nil_iff]
    intro a ha
    simp [hall a ha]
  rw [hnil]
  rcases df with ⟨cols⟩
  simp

/-- C8 witness: aligning a one-column frame against the four `StateHoliday`
indicator names appends the three missing zero columns. -/
theorem c8_witness :
    ((∀ v ∈ Frames.stateHolidayVars,
        v ∈ (Frames.DataFrame.mk [("StateHoliday_0", [Frames.Val.num 1])]).columns) →
      Frames.addMissingColumns ⟨[("StateHoliday_0", [Frames.Val.num 1])]⟩
        Frames.stateHolidayVars = ⟨[("StateHoliday_0", [Frames.Val.num 1])]⟩) ∧
    Frames.addMissingColumns ⟨[("StateHoliday_0", [Frames.Val.num 1])]⟩
        Frames.stateHolidayVars =
      ⟨[("StateHoliday_0", [Frames.Val.num 1])] ++
        (Frames.stateHolidayVars.filter (fun v => ¬ v ∈
          (Frames.DataFrame.mk [("StateHoliday_0", [Frames.Val.num 1])]).columns)).map
          (fun v => (v, List.replicate
            (Frames.DataFrame.mk [("StateHoliday_0", [Frames.Val.num 1])]).nrows
            (Frames.Val.num 0)))⟩ :=
  c8_alignment ⟨[("StateHoliday_0", [Frames.Val.num 1])]⟩ Frames.stateHolidayVars
    (by decide)

/-- C10: a concrete train/test raw pair with different observed
`StateHoliday` levels (`"a"` versus `"0"`) whose feature matrices expose the
same column set (a permutation) but in different orders: the observed level's
indicator enters with the one-hot join while the synthesized levels are
appended at the then-current end of the frame. -/
theorem c10_column_order :
    (Frames.trainFeatureColumns id Frames.rawTrainA).Perm
      (Frames.testFeatureColumns id Frames.rawTestZero) ∧
    Frames.trainFeatureColumns id Frames.rawTrainA ≠
      Frames.testFeatureColumns id Frames.rawTestZero := by
  decide

/-- C4 counterexample: a raw training table observing the holiday level
`"d"`, outside the fixed enumeration `0/a/b/c`, produces the feature column
`StateHoliday_d` on the training side only — `prepare_data` does not
synthesize it on the test side, so the two feature column sets differ. -/
theorem c4_counterexample :
    "StateHoliday_d" ∈ Frames.trainFeatureColumns id Frames.rawTrainD ∧
    ¬ "StateHoliday_d" ∈ Frames.testFeatureColumns id Frames.rawTestZero := by
  decide

/-- Helper: a column lookup ignores appended columns when the name is
already present. -/
theorem Frames.find?_name_append (cols more : List (String × List Frames.Val))
    (n : String) (h : n ∈ cols.map Prod.fst) :
    (cols ++ more).find? (fun c => c.1 = n) = cols.find? (fun c => c.1 = n) := by
  rw [List.find?_append]
  rcases List.mem_map.mp h with ⟨q, hq, hq1⟩
  rcases hfound : cols.find? (fun c => c.1 = n) with _ | v
  · exact absurd (List.find?_eq_none.mp hfound q hq) (by simp [hq1])
  · rw [hfound]
    rfl

/-- Helper: looking a present column up in a frame extended on the right. -/
theorem Frames.getCol_mk_append (df : Frames.DataFrame)
    (more : List (String × List Frames.Val)) (n : String) (h : n ∈ df.columns) :
    (Frames.DataFrame.mk (df.cols ++ more)).getCol n = df.getCol n := by
  unfold Frames.DataFrame.getCol
  rw [Frames.find?_name_append df.cols more n h]

/-- Helper: dropping unrelated columns does not change a lookup. -/
theorem Frames.getCol_drop (df : Frames.DataFrame) (names : List String)
    (n : String) (hn : ¬ n ∈ names) :
    (df.drop names).getCol n = df.getCol n := by
  unfold Frames.DataFrame.getCol Frames.DataFrame.drop
  congr 1
  induction df.cols with
  | nil => rfl
  | cons c cs ih =>
    by_cases hc : c.1 ∈ names
    · have hc1 : ¬ (c.1 = n) := fun h => hn (h ▸ hc)
      rw [List.filter_cons, if_neg (by simp [hc]), List.find?_cons_of_neg _ (by simp [hc1])]
      exact ih
    · by_cases hcn : c.1 = n
      · rw [List.filter_cons, if_pos (by simp [hc]),
          List.find?_cons_of_pos _ (by simp [hcn]), List.find?_cons_of_pos _ (by simp [hcn])]
      · rw [List.filter_cons, if_pos (by simp [hc]),
          List.find?_cons_of_neg _ (by simp [hcn]), List.find?_cons_of_neg _ (by simp [hcn])]
        exact ih

/-- Helper: replacing the matching pairs in place puts `(n, v)` at the first
position whose name is `n`. -/
theorem Frames.find?_map_replace (cols : List (String × List Frames.Val))
    (n : String) (v : List Frames.Val) (h : n ∈ cols.map Prod.fst) :
    (cols.map (fun c => if c.1 = n then (n, v) else c)).find? (fun c => c.1 = n) =
      some (n, v) := by
  induction cols with
  | nil => exact absurd h (by simp)
  | cons c cs ih =>
    by_cases hc : c.1 = n
    · rw [List.map_cons, if_pos hc, List.find?_cons_of_pos _ (by simp)]
    · rw [List.map_cons, if_neg hc, List.find?_cons_of_neg _ (by simp [hc])]
      refine ih ?_
      rcases List.mem_map.mp h with ⟨q, hq, hq1⟩
      rcases List.mem_cons.mp hq with rfl | hq'
      · exact absurd hq1 hc
      · exact List.mem_map.mpr ⟨q, hq', hq1⟩

/-- Helper: reading back the column just assigned. -/
theorem Frames.getCol_setCol_self (df : Frames.DataFrame) (n : String)
    (v : List Frames.Val) : (df.setCol n v).getCol n = v := by
  unfold Frames.DataFrame.setCol
  by_cases h : n ∈ df.columns
  · rw [if_pos h]
    unfold Frames.DataFrame.getCol
    rw [Frames.find?_map_replace df.cols n v h]
    rfl
  · rw [if_neg h]
    unfold Frames.DataFrame.getCol
    rw [List.find?_append, List.find?_eq_none.mpr, Option.none_or,
      List.find?_cons_of_pos _ (by simp)]
    · rfl
    · intro x hx
      simp only [decide_eq_true_eq]
      exact fun hx1 => h (hx1 ▸ List.mem_map.mpr ⟨x, hx, rfl⟩)

/-- Helper: assigning one column does not change a lookup of another. -/
theorem Frames.getCol_setCol_ne (df : Frames.DataFrame) (n m : String)
    (v : List Frames.Val) (hne : m ≠ n) :
    (df.setCol n v).getCol m = df.getCol m := by
  unfold Frames.DataFrame.setCol
  by_cases h : n ∈ df.columns
  · rw [if_pos h]
    unfold Frames.DataFrame.getCol
    congr 1
    induction df.cols with
    | nil => rfl
    | cons c cs ih =>
      by_cases hc : c.1 = n
      · rw [List.map_cons, if_pos hc, List.find?_cons_of_neg _ (by simp [Ne.symm hne]),
          List.find?_cons_of_neg _ (by simp [hc ▸ Ne.symm hne])]
        exact ih
      · by_cases hcm : c.1 = m
        · rw [List.map_cons, if_neg hc, List.find?_cons_of_pos _ (by simp [hcm]),
            List.find?_cons_of_pos _ (by simp [hcm])]
        · rw [List.map_cons, if_neg hc, List.find?_cons_of_neg _ (by simp [hcm]),
            List.find?_cons_of_neg _ (by simp [hcm])]
          exact ih
  · rw [if_neg h]
    unfold Frames.DataFrame.getCol
    rw [List.find?_append, List.find?_cons_of_neg _ (by simp [Ne.symm hne])]
    simp

/-- Helper: the back-filling loop does not change a lookup of a column that
is already present. -/
theorem Frames.getCol_addMissing (df : Frames.DataFrame) (req : List String)
    (n : String) (h : n ∈ df.columns) :
    (Frames.addMissingColumns df req).getCol n = df.getCol n := by
  induction req generalizing df with
  | nil => rfl
  | cons v vs ih =>
    by_cases hv : v ∈ df.columns
    · simp only [Frames.addMissingColumns, List.foldl_cons, if_pos hv]
      exact ih df h
    · have hnv : n ≠ v := fun hnv => hv (hnv ▸ h)
      simp only [Frames.addMissingColumns, List.foldl_cons, if_neg hv]
      rw [show List.foldl _ _ vs = Frames.addMissingColumns
        (df.setCol v (List.replicate df.nrows (Frames.Val.num 0))) vs from rfl,
        ih _ ((Frames.mem_columns_setCol df v _ n).mpr (Or.inl h)),
        Frames.getCol_setCol_ne df v n _ hnv]

/-- Helper: membership in the columns of a `drop`. -/
theorem Frames.mem_columns_drop (df : Frames.DataFrame) (names : List String)
    (c : String) :
    c ∈ (df.drop names).columns ↔ c ∈ df.columns ∧ ¬ c ∈ names := by
  simp only [Frames.DataFrame.drop, Frames.DataFrame.columns, List.mem_map,
    List.mem_filter, decide_not, Bool.not_eq_true', decide_eq_false_iff_not]
  constructor
  · rintro ⟨q, ⟨hq, hqn⟩, rfl⟩
    exact ⟨⟨q, hq, rfl⟩, hqn⟩
  · rintro ⟨⟨q, hq, rfl⟩, hqn⟩
    exact ⟨q, ⟨hq, hqn⟩, rfl⟩

/-- Helper: membership in the columns of a `join`. -/
theorem Frames.mem_columns_join (df other : Frames.DataFrame) (c : String) :
    c ∈ (df.join other).columns ↔ c ∈ df.columns ∨ c ∈ other.columns := by
  simp [Frames.DataFrame.join, Frames.DataFrame.columns]

/-- Helper: the back-filling loop adds exactly the required names. -/
theorem Frames.mem_columns_addMissing (df : Frames.DataFrame)
    (req : List String) (c : String) :
    c ∈ (Frames.addMissingColumns df req).columns ↔ c ∈ df.columns ∨ c ∈ req := by
  induction req generalizing df with
  | nil => simp [Frames.addMissingColumns]
  | cons v vs ih =>
    by_cases hv : v ∈ df.columns
    · simp only [Frames.addMissingColumns, List.foldl_cons, if_pos hv]
      rw [show List.foldl _ _ vs = Frames.addMissingColumns df vs from rfl, ih df]
      constructor
      · rintro (h | h)
        · exact Or.inl h
        · exact Or.inr (List.mem_cons_of_mem v h)
      · rintro (h | h)
        · exact Or.inl h
        · rcases List.mem_cons.mp h with rfl | h
          · exact Or.inl hv
          · exact Or.inr h
    · simp only [Frames.addMissingColumns, List.foldl_cons, if_neg hv]
      rw [show List.foldl _ _ vs = Frames.addMissingColumns
        (df.setCol v (List.replicate df.nrows (Frames.Val.num 0))) vs from rfl,
        ih _, Frames.mem_columns_setCol]
      constructor
      · rintro ((h | h) | h)
        · exact Or.inl h
        · exact Or.inr (h ▸ List.mem_cons_self v vs)
        · exact Or.inr (List.mem_cons_of_mem v h)
      · rintro (h | h)
        · exact Or.inl (Or.inl h)
        · rcases List.mem_cons.mp h with rfl | h
          · exact Or.inl (Or.inr rfl)
          · exact Or.inr h

/-- Helper: sorted insertion preserves the members. -/
theorem Frames.mem_insertSorted (x a : String) (l : List String) :
    a ∈ Frames.insertSorted x l ↔ a = x ∨ a ∈ l := by
  induction l with
  | nil => simp [Frames.insertSorted]
  | cons y ys ih =>
    by_cases hxy : Frames.strLe x y = true
    · simp [Frames.insertSorted, hxy]
    · simp only [Frames.insertSorted, if_neg hxy, List.mem_cons, ih]
      tauto

/-- Helper: sorting preserves the members. -/
theorem Frames.mem_sortStrings (a : String) (l : List String) :
    a ∈ Frames.sortStrings l ↔ a ∈ l := by
  induction l with
  | nil => simp [Frames.sortStrings]
  | cons y ys ih =>
    simp only [Frames.sortStrings, Frames.mem_insertSorted, List.mem_cons, ih]

/-- Helper: the dummy columns are named after the observed levels. -/
theorem Frames.mem_columns_get_dummies (vals : List String) (pre c : String) :
    c ∈ (Frames.get_dummies vals pre).columns ↔
      ∃ l ∈ vals, c = pre ++ "_" ++ l := by
  simp only [Frames.get_dummies, Frames.sortedLevels, Frames.DataFrame.columns,
    List.map_map, List.mem_map, Function.comp, Frames.mem_sortStrings,
    List.mem_dedup]
  constructor
  · rintro ⟨l, hl, rfl⟩
    exact ⟨l, hl, rfl⟩
  · rintro ⟨l, hl, rfl⟩
    exact ⟨l, hl, rfl⟩

/-- Helper: membership in the columns after one-hot encoding. -/
theorem Frames.mem_columns_one_hot (df : Frames.DataFrame) (target pre c : String) :
    c ∈ (Frames.one_hot_encode df target pre none).columns ↔
      (c ∈ df.columns ∧ c ≠ target) ∨
        ∃ l ∈ (df.getCol target).map Frames.Val.name, c = pre ++ "_" ++ l := by
  unfold Frames.one_hot_encode
  rw [Frames.mem_columns_join, Frames.mem_columns_drop,
    Frames.mem_columns_get_dummies]
  simp

/-- Helper: one-hot encoding another column does not change a lookup. -/
theorem Frames.getCol_one_hot (df : Frames.DataFrame) (target pre n : String)
    (hne : n ≠ target) (h : n ∈ df.columns) :
    (Frames.one_hot_encode df target pre none).getCol n = df.getCol n := by
  unfold Frames.one_hot_encode Frames.DataFrame.join
  rw [show (Frames.DataFrame.mk ((df.drop [target]).cols ++
      (Frames.get_dummies ((df.getCol target).map Frames.Val.name) pre).cols)) =
    Frames.DataFrame.mk ((df.drop [target]).cols ++
      (Frames.get_dummies ((df.getCol target).map Frames.Val.name) pre).cols) from rfl]
  rw [Frames.getCol_mk_append (df.drop [target]) _ n
    ((Frames.mem_columns_drop df [target] n).mpr ⟨h, by simp [hne]⟩)]
  exact Frames.getCol_drop df [target] n (by simp [hne])

/-- Helper: a `StateHoliday` indicator name is never one of the plain
column names (length argument). -/
theorem Frames.sh_indicator_ne (l : String) :
    ("StateHoliday" ++ "_" ++ l) ≠ "DayOfWeek" := by
  intro h
  have := congrArg String.length h
  simp [String.length_append] at this
  rw [show "StateHoliday_".length = 13 from rfl, show "DayOfWeek".length = 9 from rfl] at this
  omega

set_option maxHeartbeats 4000000 in
theorem Frames.mem_prepare_data_columns (log2v : ℚ → ℚ) (df : Frames.DataFrame)
    (has_y : Bool) (c : String)
    (hdow : "DayOfWeek" ∈ df.columns)
    (hcust : "Customers" ∈ df.columns)
    (hsales : has_y = true → "Sales" ∈ df.columns) :
    c ∈ (Frames.prepare_data log2v df ["Date"] has_y).columns ↔
      (c ∈ df.columns ∧ c ≠ "Date" ∧ c ≠ "StateHoliday" ∧ c ≠ "DayOfWeek") ∨
      (∃ l ∈ (df.getCol "StateHoliday").map Frames.Val.name,
        c = "StateHoliday" ++ "_" ++ l) ∨
      c ∈ Frames.stateHolidayVars ∨
      (∃ l ∈ (df.getCol "DayOfWeek").map Frames.Val.name, c = "Day" ++ "_" ++ l) ∨
      c ∈ Frames.dayVars ∨
      c = "Id" := by
  simp only [Frames.prepare_data]
  set d1 := df.drop ["Date"] with hd1
  set d2 := d1.setCol "StateHoliday"
    ((d1.getCol "StateHoliday").map (fun v => Frames.Val.str v.name)) with hd2
  set d3 := Frames.one_hot_encode d2 "StateHoliday" "StateHoliday" none with hd3
  set d4 := Frames.addMissingColumns d3 Frames.stateHolidayVars with hd4
  set d5 := d4.setCol "Customers"
    ((d4.getCol "Customers").map
      (fun v => Frames.Val.num (log2v (Frames.floorZeroQ v.toQ)))) with hd5
  set d6 := Frames.one_hot_encode d5 "DayOfWeek" "Day" none with hd6
  set d7 := Frames.addMissingColumns d6 Frames.dayVars with hd7
  set d8 := d7.setCol "Id" ((List.range d7.nrows).map (fun i => Frames.Val.num i)) with hd8
  have hDow1 : "DayOfWeek" ∈ d1.columns :=
    (Frames.mem_columns_drop df ["Date"] _).mpr ⟨hdow, by decide⟩
  have hDow2 : "DayOfWeek" ∈ d2.columns :=
    (Frames.mem_columns_setCol d1 _ _ _).mpr (Or.inl hDow1)
  have hDow3 : "DayOfWeek" ∈ d3.columns := by
    rw [hd3, Frames.mem_columns_one_hot]
    exact Or.inl ⟨hDow2, by decide⟩
  have hSHlvls : (d2.getCol "StateHoliday").map Frames.Val.name =
      (df.getCol "StateHoliday").map Frames.Val.name := by
    rw [hd2, Frames.getCol_setCol_self, hd1, Frames.getCol_drop df ["Date"] _ (by decide),
      List.map_map]
    exact List.map_congr_left (fun v _ => rfl)
  have hgetDow : d5.getCol "DayOfWeek" = df.getCol "DayOfWeek" := by
    rw [hd5, Frames.getCol_setCol_ne d4 "Customers" "DayOfWeek" _ (by decide),
      hd4, Frames.getCol_addMissing d3 Frames.stateHolidayVars _ hDow3,
      hd3, Frames.getCol_one_hot d2 "StateHoliday" "StateHoliday" _ (by decide) hDow2,
      hd2, Frames.getCol_setCol_ne d1 "StateHoliday" "DayOfWeek" _ (by decide),
      hd1, Frames.getCol_drop df ["Date"] _ (by decide)]
  have hCust : c = "Customers" →
      c ∈ df.columns ∧ ¬ c = "Date" ∧ ¬ c = "StateHoliday" ∧ ¬ c = "DayOfWeek" := by
    rintro rfl
    exact ⟨hcust, by decide, by decide, by decide⟩
  have hSHv : c ∈ Frames.stateHolidayVars → ¬ c = "DayOfWeek" := by
    intro hc
    simp only [Frames.stateHolidayVars, List.mem_cons, List.not_mem_nil, or_false] at hc
    rcases hc with rfl | rfl | rfl | rfl <;> decide
  have hESH : (∃ l ∈ (df.getCol "StateHoliday").map Frames.Val.name,
      c = "StateHoliday" ++ "_" ++ l) → ¬ c = "DayOfWeek" := by
    rintro ⟨l, _, rfl⟩
    exact Frames.sh_indicator_ne l
  cases has_y with
  | false =>
    rw [if_neg (by simp)]
    rw [hd8, Frames.mem_columns_setCol, hd7, Frames.mem_columns_addMissing,
      hd6, Frames.mem_columns_one_hot, hgetDow, hd5, Frames.mem_columns_setCol,
      hd4, Frames.mem_columns_addMissing, hd3, Frames.mem_columns_one_hot, hSHlvls,
      hd2, Frames.mem_columns_setCol, hd1, Frames.mem_columns_drop]
    simp only [List.mem_singleton]
    constructor
    · rintro (((⟨h4, hdow2⟩ | hE2) | hV2) | hId)
      · rcases h4 with ((⟨hX1, hsh2⟩ | hE1) | hV1) | hCu
        · rcases hX1 with ⟨hA, hd⟩ | hSH2
          · exact Or.inl ⟨hA, hd, hsh2, hdow2⟩
          · exact absurd hSH2 hsh2
        · exact Or.inr (Or.inl hE1)
        · exact Or.inr (Or.inr (Or.inl hV1))
        · rcases hCust hCu with ⟨hA, h1, h2, h3⟩
          exact Or.inl ⟨hA, h1, h2, h3⟩
      · exact Or.inr (Or.inr (Or.inr (Or.inl hE2)))
      · exact Or.inr (Or.inr (Or.inr (Or.inr (Or.inl hV2))))
      · exact Or.inr (Or.inr (Or.inr (Or.inr (Or.inr hId))))
    · rintro (⟨hA, hd, hs, hw⟩ | hE1 | hV1 | hE2 | hV2 | hId)
      · exact Or.inl (Or.inl (Or.inl ⟨Or.inl (Or.inl (Or.inl ⟨Or.inl ⟨hA, hd⟩, hs⟩)), hw⟩))
      · exact Or.inl (Or.inl (Or.inl ⟨Or.inl (Or.inl (Or.inr hE1)), hESH hE1⟩))
      · exact Or.inl (Or.inl (Or.inl ⟨Or.inl (Or.inr hV1), hSHv hV1⟩))
      · exact Or.inl (Or.inl (Or.inr hE2))
      · exact Or.inl (Or.inr hV2)
      · exact Or.inr hId
  | true =>
    have hSalesMem : "Sales" ∈ df.columns := hsales rfl
    have hSales : c = "Sales" →
        c ∈ df.columns ∧ ¬ c = "Date" ∧ ¬ c = "StateHoliday" ∧ ¬ c = "DayOfWeek" := by
      rintro rfl
      exact ⟨hSalesMem, by decide, by decide, by decide⟩
    rw [if_pos rfl]
    rw [Frames.mem_columns_setCol, hd8, Frames.mem_columns_setCol, hd7,
      Frames.mem_columns_addMissing, hd6, Frames.mem_columns_one_hot, hgetDow,
      hd5, Frames.mem_columns_setCol, hd4, Frames.mem_columns_addMissing,
      hd3, Frames.mem_columns_one_hot, hSHlvls, hd2, Frames.mem_columns_setCol,
      hd1, Frames.mem_columns_drop]
    simp only [List.mem_singleton]
    constructor
    · rintro ((((⟨h4, hdow2⟩ | hE2) | hV2) | hId) | hSa)
      · rcases h4 with ((⟨hX1, hsh2⟩ | hE1) | hV1) | hCu
        · rcases hX1 with ⟨hA, hd⟩ | hSH2
          · exact Or.inl ⟨hA, hd, hsh2, hdow2⟩
          · exact absurd hSH2 hsh2
        · exact Or.inr (Or.inl hE1)
        · exact Or.inr (Or.inr (Or.inl hV1))
        · rcases hCust hCu with ⟨hA, h1, h2, h3⟩
          exact Or.inl ⟨hA, h1, h2, h3⟩
      · exact Or.inr (Or.inr (Or.inr (Or.inl hE2)))
      · exact Or.inr (Or.inr (Or.inr (Or.inr (Or.inl hV2))))
      · exact Or.inr (Or.inr (Or.inr (Or.inr (Or.inr hId))))
      · rcases hSales hSa with ⟨hA, h1, h2, h3⟩
        exact Or.inl ⟨hA, h1, h2, h3⟩
    · rintro (⟨hA, hd, hs, hw⟩ | hE1 | hV1 | hE2 | hV2 | hId)
      · exact Or.inl (Or.inl (Or.inl (Or.inl ⟨Or.inl (Or.inl (Or.inl ⟨Or.inl ⟨hA, hd⟩, hs⟩)), hw⟩)))
      · exact Or.inl (Or.inl (Or.inl (Or.inl ⟨Or.inl (Or.inl (Or.inr hE1)), hESH hE1⟩)))
      · exact Or.inl (Or.inl (Or.inl (Or.inl ⟨Or.inl (Or.inr hV1), hSHv hV1⟩)))
      · exact Or.inl (Or.inl (Or.inl (Or.inr hE2)))
      · exact Or.inl (Or.inl (Or.inr hV2))
      · exact Or.inl (Or.inr hId)

set_option maxHeartbeats 4000000 in
/-- C4 amended, for raw tables of the shared column contract: the
characterization lemma shows the prepared feature column set is the raw
columns minus `Date`/`StateHoliday`/`DayOfWeek` plus the observed and
enumerated indicator columns plus `Id`; when every observed level falls in
the fixed enumerations, the train and test feature matrices expose the same
column set. -/
theorem c4_schema_alignment (log2v : ℚ → ℚ) (rawTrain rawTest : Frames.DataFrame)
    (htrain : rawTrain.columns = Frames.rawTrainColumns)
    (htest : rawTest.columns = Frames.rawTestColumns)
    (hshTrain : ∀ l ∈ (rawTrain.getCol "StateHoliday").map Frames.Val.name,
      ("StateHoliday" ++ "_" ++ l) ∈ Frames.stateHolidayVars)
    (hshTest : ∀ l ∈ (rawTest.getCol "StateHoliday").map Frames.Val.name,
      ("StateHoliday" ++ "_" ++ l) ∈ Frames.stateHolidayVars)
    (hdayTrain : ∀ l ∈ (rawTrain.getCol "DayOfWeek").map Frames.Val.name,
      ("Day" ++ "_" ++ l) ∈ Frames.dayVars)
    (hdayTest : ∀ l ∈ (rawTest.getCol "DayOfWeek").map Frames.Val.name,
      ("Day" ++ "_" ++ l) ∈ Frames.dayVars) :
    ∀ c, c ∈ Frames.trainFeatureColumns log2v rawTrain ↔
      c ∈ Frames.testFeatureColumns log2v rawTest := by
  intro c
  have trainIff : c ∈ Frames.trainFeatureColumns log2v rawTrain ↔
      (c = "Customers" ∨ c = "Promo" ∨ c = "SchoolHoliday" ∨
        c ∈ Frames.stateHolidayVars ∨ c ∈ Frames.dayVars) := by
    unfold Frames.trainFeatureColumns
    rw [Frames.mem_columns_drop,
      Frames.mem_prepare_data_columns log2v rawTrain true c
        (by rw [htrain]; decide) (by rw [htrain]; decide)
        (fun _ => by rw [htrain]; decide),
      htrain]
    simp only [Frames.rawTrainColumns, List.mem_cons, List.not_mem_nil, or_false,
      not_or]
    constructor
    · rintro ⟨(⟨hm, hd, hs, hw⟩ | hE1 | hV1 | hE2 | hV2 | rfl), hId, hSa, hSt, hOp⟩
      · rcases hm with rfl | rfl | rfl | rfl | rfl | rfl | rfl | rfl | rfl
        · exact absurd rfl hSt
        · exact absurd rfl hw
        · exact absurd rfl hd
        · exact absurd rfl hSa
        · exact Or.inl rfl
        · exact absurd rfl hOp
        · exact Or.inr (Or.inl rfl)
        · exact absurd rfl hs
        · exact Or.inr (Or.inr (Or.inl rfl))
      · exact Or.inr (Or.inr (Or.inr (Or.inl (by rcases hE1 with ⟨l, hl, rfl⟩; exact hshTrain l hl))))
      · exact Or.inr (Or.inr (Or.inr (Or.inl hV1)))
      · exact Or.inr (Or.inr (Or.inr (Or.inr (by rcases hE2 with ⟨l, hl, rfl⟩; exact hdayTrain l hl))))
      · exact Or.inr (Or.inr (Or.inr (Or.inr hV2)))
      · exact absurd rfl hId
    · rintro (rfl | rfl | rfl | hV1 | hV2)
      · exact ⟨Or.inl (by decide), by decide, by decide, by decide, by decide⟩
      · exact ⟨Or.inl (by decide), by decide, by decide, by decide, by decide⟩
      · exact ⟨Or.inl (by decide), by decide, by decide, by decide, by decide⟩
      · have hne : ¬ c = "Id" ∧ ¬ c = "Sales" ∧ ¬ c = "Store" ∧ ¬ c = "Open" := by
          simp only [Frames.stateHolidayVars, List.mem_cons, List.not_mem_nil,
            or_false] at hV1
          rcases hV1 with rfl | rfl | rfl | rfl <;> exact ⟨by decide, by decide, by decide, by decide⟩
        exact ⟨Or.inr (Or.inr (Or.inl hV1)), hne.1, hne.2.1, hne.2.2.1, hne.2.2.2⟩
      · have hne : ¬ c = "Id" ∧ ¬ c = "Sales" ∧ ¬ c = "Store" ∧ ¬ c = "Open" := by
          simp only [Frames.dayVars, List.mem_cons, List.not_mem_nil,
            or_false] at hV2
          rcases hV2 with rfl | rfl | rfl | rfl | rfl | rfl | rfl <;>
            exact ⟨by decide, by decide, by decide, by decide⟩
        exact ⟨Or.inr (Or.inr (Or.inr (Or.inr (Or.inl hV2)))), hne.1, hne.2.1, hne.2.2.1, hne.2.2.2⟩
  have testIff : c ∈ Frames.testFeatureColumns log2v rawTest ↔
      (c = "Customers" ∨ c = "Promo" ∨ c = "SchoolHoliday" ∨
        c ∈ Frames.stateHolidayVars ∨ c ∈ Frames.dayVars) := by
    unfold Frames.testFeatureColumns
    rw [Frames.mem_columns_drop, Frames.mem_columns_drop,
      Frames.mem_prepare_data_columns log2v rawTest false c
        (by rw [htest]; decide) (by rw [htest]; decide)
        (fun h => by exact absurd h (by decide)),
      htest]
    simp only [Frames.rawTestColumns, List.mem_cons, List.not_mem_nil, or_false,
      List.mem_singleton, not_or]
    constructor
    · rintro ⟨⟨(⟨hm, hd, hs, hw⟩ | hE1 | hV1 | hE2 | hV2 | rfl), hOp⟩, hId, hSt⟩
      · rcases hm with rfl | rfl | rfl | rfl | rfl | rfl | rfl | rfl
        · exact absurd rfl hSt
        · exact absurd rfl hw
        · exact absurd rfl hd
        · exact Or.inl rfl
        · exact absurd rfl hOp
        · exact Or.inr (Or.inl rfl)
        · exact absurd rfl hs
        · exact Or.inr (Or.inr (Or.inl rfl))
      · exact Or.inr (Or.inr (Or.inr (Or.inl (by rcases hE1 with ⟨l, hl, rfl⟩; exact hshTest l hl))))
      · exact Or.inr (Or.inr (Or.inr (Or.inl hV1)))
      · exact Or.inr (Or.inr (Or.inr (Or.inr (by rcases hE2 with ⟨l, hl, rfl⟩; exact hdayTest l hl))))
      · exact Or.inr (Or.inr (Or.inr (Or.inr hV2)))
      · exact absurd rfl hId
    · rintro (rfl | rfl | rfl | hV1 | hV2)
      · exact ⟨⟨Or.inl (by decide), by decide⟩, by decide, by decide⟩
      · exact ⟨⟨Or.inl (by decide), by decide⟩, by decide, by decide⟩
      · exact ⟨⟨Or.inl (by decide), by decide⟩, by decide, by decide⟩
      · have hne : ¬ c = "Id" ∧ ¬ c = "Store" ∧ ¬ c = "Open" := by
          simp only [Frames.stateHolidayVars, List.mem_cons, List.not_mem_nil,
            or_false] at hV1
          rcases hV1 with rfl | rfl | rfl | rfl <;> exact ⟨by decide, by decide, by decide⟩
        exact ⟨⟨Or.inr (Or.inr (Or.inl hV1)), hne.2.2⟩, hne.1, hne.2.1⟩
      · have hne : ¬ c = "Id" ∧ ¬ c = "Store" ∧ ¬ c = "Open" := by
          simp only [Frames.dayVars, List.mem_cons, List.not_mem_nil,
            or_false] at hV2
          rcases hV2 with rfl | rfl | rfl | rfl | rfl | rfl | rfl <;>
            exact ⟨by decide, by decide, by decide⟩
        exact ⟨⟨Or.inr (Or.inr (Or.inr (Or.inr (Or.inl hV2)))), hne.2.2⟩, hne.1, hne.2.1⟩
  rw [trainIff, testIff]


/-- C4 witness: the concrete one-row contract tables with levels `"a"`
(train) and `"0"` (test), both inside the enumerations. -/
theorem c4_schema_alignment_witness :
    "StateHoliday_a" ∈ Frames.trainFeatureColumns id Frames.rawTrainA ↔
      "StateHoliday_a" ∈ Frames.testFeatureColumns id Frames.rawTestZero :=
  c4_schema_alignment id Frames.rawTrainA Frames.rawTestZero (by decide)
    (by decide) (by decide) (by decide) (by decide) (by decide) "StateHoliday_a"
